import Mathlib

/-!
# The XAuth method manager (`libcharon/sa/authenticators/xauth/xauth_manager.c`)

A shallow embedding of the manager's catalog of constructor entries and of its
three operations `add_method`, `remove_method` and `create_instance`, followed
by the properties of these operations.

Conventions of the embedding:

* a pointer that may be `NULL` is an `Option`; `NULL` is `none`;
* a function pointer (`xauth_constructor_t`) is the address of the function, so
  that `==` on constructors is equality of addresses; what the function at an
  address returns for a pair of identities is given by a parameter `invoke`;
* the manager is passed explicitly: an operation takes the manager and returns
  the manager it leaves behind;
* the calls of `lock->write_lock`, `lock->read_lock` and `lock->unlock` bracket
  the body of each operation and do not touch the list, so that a sequential
  run is the body alone.
-/

namespace XAuth

/-! ## Types declared outside `xauth_manager.c` -/

/-- Modelled from the spec: the enumeration `xauth_type_t`, declared outside
`xauth_manager.c`, the "identifier of the authentication method". Only equality of
two such values is ever used; the values of an enumeration are numbers. -/
abbrev xauth_type_t := Nat

/-- Modelled from the spec: the enumeration `xauth_role_t`, declared outside
`xauth_manager.c`, "one of {SERVER, PEER}"; the comment on the `role` field of
`xauth_entry_t` names the two values. -/
inductive xauth_role_t where
  | XAUTH_SERVER
  | XAUTH_PEER
  deriving DecidableEq, Repr

/-- Modelled from the spec: the function pointer type `xauth_constructor_t` of
`xauth_manager.h`, "an opaque capability" "compared by constructor identity": the
address of the constructor function. -/
abbrev xauth_constructor_t := Nat

/-- Modelled from the spec: `linked_list_t` of `utils/linked_list.h`, declared and
implemented outside `xauth_manager.c`, the "generic ordered-collection
abstraction" that "preserves insertion order": the items from first to last,
which is the order in which an enumerator of the list hands them out. -/
abbrev linked_list_t (α : Type) := List α

/-- Modelled from the spec: `linked_list_create()`, a list without items. -/
def linked_list_create {α : Type} : linked_list_t α := []

/-- Modelled from the spec: `insert_last` of `linked_list_t`, which "appends ... to
the end" of the list. -/
def insert_last {α : Type} (list : linked_list_t α) (item : α) : linked_list_t α :=
  list ++ [item]

/-! ## `xauth_entry_t` and `private_xauth_manager_t` -/

/-- The `struct xauth_entry_t`: an XAuth constructor entry. `vendor` is a
`u_int32_t`; it is only ever stored and compared. -/
structure xauth_entry_t where
  type : xauth_type_t
  vendor : Nat
  role : xauth_role_t
  constructor : xauth_constructor_t
  deriving DecidableEq, Repr

/-- The `struct private_xauth_manager_t`: `methods` is the list of entries. The
`public` table of function pointers and the `lock` hold no data of the catalog. -/
structure private_xauth_manager_t where
  methods : linked_list_t xauth_entry_t
  deriving DecidableEq, Repr

/-- The function `xauth_manager_create`: `.methods = linked_list_create()`. -/
def xauth_manager_create : private_xauth_manager_t :=
  { methods := linked_list_create }

/-! ## `add_method` -/

/-- The method `add_method`: a new entry is filled with the four arguments and
`insert_last` puts it into `this->methods`. -/
def add_method (this : private_xauth_manager_t) (type : xauth_type_t) (vendor : Nat)
    (role : xauth_role_t) (constructor : xauth_constructor_t) : private_xauth_manager_t :=
  let entry : xauth_entry_t :=
    { type := type, vendor := vendor, role := role, constructor := constructor }
  { this with methods := insert_last this.methods entry }

/-! ## `remove_method` -/

/-- Modelled from the spec: `enumerate` of the enumerator of a `linked_list_t`
(implemented outside `xauth_manager.c`), as far as the list is concerned. The
enumerator hands out the items in insertion order; `passed` is the part of the
list from its first item up to the item the enumerator stands on, and moving on
to the next item `item` makes it `passed ++ [item]`. -/
def enumerate_onto {α : Type} (passed : List α) (item : α) : List α :=
  passed ++ [item]

/-- Modelled from the spec: `remove_at` of `linked_list_t` (implemented outside
`xauth_manager.c`), which takes the item the enumerator stands on, the
last of `passed`, out of the list; the enumeration goes on with the item that
followed it. -/
def remove_at {α : Type} (passed : List α) : List α :=
  passed.dropLast

/-- The `while (enumerator->enumerate(enumerator, &entry))` loop of `remove_method`.
While it runs the list is `passed ++ pending`, where `pending` holds the items the
enumerator has not reached; `enumerate` fails when `pending` is empty. -/
def remove_method_loop (constructor : xauth_constructor_t) :
    (pending : List xauth_entry_t) → (passed : List xauth_entry_t) → linked_list_t xauth_entry_t
  | [], passed => passed
  | entry :: pending, passed =>
    if constructor = entry.constructor then
      -- this->methods->remove_at(this->methods, enumerator); free(entry);
      remove_method_loop constructor pending (remove_at (enumerate_onto passed entry))
    else
      remove_method_loop constructor pending (enumerate_onto passed entry)

/-- The method `remove_method`: the loop runs over `this->methods` from its first
item. -/
def remove_method (this : private_xauth_manager_t) (constructor : xauth_constructor_t) :
    private_xauth_manager_t :=
  { this with methods := remove_method_loop constructor this.methods [] }

/-! ## `create_instance` -/

/-- The condition `type == entry->type && vendor == entry->vendor &&
role == entry->role` of `create_instance`. -/
def entry_matches (type : xauth_type_t) (vendor : Nat) (role : xauth_role_t)
    (entry : xauth_entry_t) : Prop :=
  type = entry.type ∧ vendor = entry.vendor ∧ role = entry.role

instance (type : xauth_type_t) (vendor : Nat) (role : xauth_role_t) (entry : xauth_entry_t) :
    Decidable (entry_matches type vendor role entry) := by
  unfold entry_matches
  infer_instance

/-- One call `entry->constructor(server, peer)`: the entry whose constructor is
called and the two arguments, first and second. -/
structure constructor_call (I : Type) where
  entry : xauth_entry_t
  server : I
  peer : I
  deriving DecidableEq, Repr

/-- The variables of `create_instance` while its loop runs: the local `method`
and, as a record of what happened, the constructor calls made so far. -/
structure create_instance_state (I M : Type) where
  method : Option M
  calls : List (constructor_call I)
  deriving DecidableEq, Repr

/-- The `while (enumerator->enumerate(enumerator, &entry))` loop of
`create_instance` over the items the enumerator has not reached. `invoke c server
peer` is what the constructor function at address `c` returns. -/
def create_instance_loop {I M : Type} (invoke : xauth_constructor_t → I → I → Option M)
    (type : xauth_type_t) (vendor : Nat) (role : xauth_role_t) (server peer : I) :
    (pending : List xauth_entry_t) → create_instance_state I M → create_instance_state I M
  | [], st => st
  | entry :: pending, st =>
    if entry_matches type vendor role entry then
      -- method = entry->constructor(server, peer);
      let st1 : create_instance_state I M :=
        { method := invoke entry.constructor server peer,
          calls := st.calls ++ [{ entry := entry, server := server, peer := peer }] }
      if st1.method.isSome then
        -- break;
        st1
      else
        create_instance_loop invoke type vendor role server peer pending st1
    else
      create_instance_loop invoke type vendor role server peer pending st

/-- What a call of `create_instance` leaves behind: the returned `method`, the
constructor calls it made, in order, and the manager after the call. -/
structure create_instance_result (I M : Type) where
  method : Option M
  calls : List (constructor_call I)
  manager : private_xauth_manager_t
  deriving DecidableEq, Repr

/-- The method `create_instance`: `method = NULL`, the loop over `this->methods`
from its first item, `return method`. Nothing is written to `this`. -/
def create_instance {I M : Type} (invoke : xauth_constructor_t → I → I → Option M)
    (this : private_xauth_manager_t) (type : xauth_type_t) (vendor : Nat)
    (role : xauth_role_t) (server peer : I) : create_instance_result I M :=
  let st := create_instance_loop invoke type vendor role server peer this.methods
    { method := none, calls := [] }
  { method := st.method, calls := st.calls, manager := this }

/-! ## Sample data -/

/-- A sample of constructor functions: the function at address 8 returns a
method made of the two identities, the function at address 9 returns the
method 99, every other function returns `NULL`. -/
def sample_invoke : xauth_constructor_t → Nat → Nat → Option Nat :=
  fun c server peer => if c = 8 then some (10 * server + peer) else if c = 9 then some 99 else none

/-- The catalog of the end-to-end scenario after its two registrations on a fresh
manager: `add_method(1, 0, XAUTH_SERVER, A)`, then `add_method(1, 0, XAUTH_SERVER, B)`. -/
def scenario_registered (A B : xauth_constructor_t) : private_xauth_manager_t :=
  add_method (add_method xauth_manager_create 1 0 xauth_role_t.XAUTH_SERVER A)
    1 0 xauth_role_t.XAUTH_SERVER B

/-- The first `create_instance(1, 0, XAUTH_SERVER, s, p)` of the scenario. -/
def scenario_first {I M : Type} (invoke : xauth_constructor_t → I → I → Option M)
    (A B : xauth_constructor_t) (s p : I) : create_instance_result I M :=
  create_instance invoke (scenario_registered A B) 1 0 xauth_role_t.XAUTH_SERVER s p

/-- The manager of the scenario after `remove_method(A)`, called on the manager
the first `create_instance` left behind. -/
def scenario_removed_A {I M : Type} (invoke : xauth_constructor_t → I → I → Option M)
    (A B : xauth_constructor_t) (s p : I) : private_xauth_manager_t :=
  remove_method (scenario_first invoke A B s p).manager A

/-- The second `create_instance(1, 0, XAUTH_SERVER, s, p)` of the scenario. -/
def scenario_second {I M : Type} (invoke : xauth_constructor_t → I → I → Option M)
    (A B : xauth_constructor_t) (s p : I) : create_instance_result I M :=
  create_instance invoke (scenario_removed_A invoke A B s p) 1 0 xauth_role_t.XAUTH_SERVER s p

/-- The manager of the scenario after `remove_method(B)`, called on the manager
the second `create_instance` left behind. -/
def scenario_removed_B {I M : Type} (invoke : xauth_constructor_t → I → I → Option M)
    (A B : xauth_constructor_t) (s p : I) : private_xauth_manager_t :=
  remove_method (scenario_second invoke A B s p).manager B

/-- The third `create_instance(1, 0, XAUTH_SERVER, s, p)` of the scenario. -/
def scenario_third {I M : Type} (invoke : xauth_constructor_t → I → I → Option M)
    (A B : xauth_constructor_t) (s p : I) : create_instance_result I M :=
  create_instance invoke (scenario_removed_B invoke A B s p) 1 0 xauth_role_t.XAUTH_SERVER s p

/-! ## Lemmas on the two loops -/

/-- The loop of `remove_method` keeps what was passed and, of the pending items,
those whose constructor differs from the given one. -/
theorem remove_method_loop_eq (constructor : xauth_constructor_t)
    (pending passed : List xauth_entry_t) :
    remove_method_loop constructor pending passed
      = passed ++ pending.filter (fun e => decide (e.constructor ≠ constructor)) := by
  induction pending generalizing passed with
  | nil => simp [remove_method_loop]
  | cons entry pending ih =>
    unfold remove_method_loop
    by_cases h : constructor = entry.constructor
    · have h2 : entry.constructor = constructor := h.symm
      rw [if_pos h, ih]
      simp [h2, remove_at, enumerate_onto]
    · have h2 : ¬ entry.constructor = constructor := fun e => h e.symm
      rw [if_neg h, ih]
      simp [h2, enumerate_onto]

/-- Items that do not match the request leave the loop of `create_instance`
where it stands. -/
theorem create_instance_loop_skip {I M : Type} (invoke : xauth_constructor_t → I → I → Option M)
    (type : xauth_type_t) (vendor : Nat) (role : xauth_role_t) (server peer : I)
    (entry : xauth_entry_t) (pending : List xauth_entry_t) (st : create_instance_state I M)
    (h : ¬ entry_matches type vendor role entry) :
    create_instance_loop invoke type vendor role server peer (entry :: pending) st
      = create_instance_loop invoke type vendor role server peer pending st := by
  simp [create_instance_loop, h]

/-- A matching item whose constructor returns `NULL` is recorded as called and
the loop goes on. -/
theorem create_instance_loop_decline {I M : Type}
    (invoke : xauth_constructor_t → I → I → Option M)
    (type : xauth_type_t) (vendor : Nat) (role : xauth_role_t) (server peer : I)
    (entry : xauth_entry_t) (pending : List xauth_entry_t) (st : create_instance_state I M)
    (h : entry_matches type vendor role entry)
    (hnone : invoke entry.constructor server peer = none) :
    create_instance_loop invoke type vendor role server peer (entry :: pending) st
      = create_instance_loop invoke type vendor role server peer pending
          { method := none,
            calls := st.calls ++ [{ entry := entry, server := server, peer := peer }] } := by
  simp [create_instance_loop, h, hnone]

/-- A matching item whose constructor returns a method ends the loop. -/
theorem create_instance_loop_break {I M : Type}
    (invoke : xauth_constructor_t → I → I → Option M)
    (type : xauth_type_t) (vendor : Nat) (role : xauth_role_t) (server peer : I)
    (entry : xauth_entry_t) (pending : List xauth_entry_t) (st : create_instance_state I M)
    (h : entry_matches type vendor role entry) (m : M)
    (hsome : invoke entry.constructor server peer = some m) :
    create_instance_loop invoke type vendor role server peer (entry :: pending) st
      = { method := some m,
          calls := st.calls ++ [{ entry := entry, server := server, peer := peer }] } := by
  simp [create_instance_loop, h, hsome]

/-- When no pending item matches the request, the loop changes nothing. -/
theorem create_instance_loop_no_match {I M : Type}
    (invoke : xauth_constructor_t → I → I → Option M)
    (type : xauth_type_t) (vendor : Nat) (role : xauth_role_t) (server peer : I)
    (pending : List xauth_entry_t) (st : create_instance_state I M)
    (h : ∀ e ∈ pending, ¬ entry_matches type vendor role e) :
    create_instance_loop invoke type vendor role server peer pending st = st := by
  induction pending generalizing st with
  | nil => rfl
  | cons entry pending ih =>
    rw [create_instance_loop_skip invoke type vendor role server peer entry pending st
      (h entry (List.mem_cons_self _ _))]
    exact ih st (fun e he => h e (List.mem_cons_of_mem _ he))

/-- Started with `method = NULL`, the loop returns what the first matching item
whose constructor does not return `NULL` produces, and `NULL` without such an
item. -/
theorem create_instance_loop_method {I M : Type}
    (invoke : xauth_constructor_t → I → I → Option M)
    (type : xauth_type_t) (vendor : Nat) (role : xauth_role_t) (server peer : I)
    (pending : List xauth_entry_t) (st : create_instance_state I M)
    (h : st.method = none) :
    (create_instance_loop invoke type vendor role server peer pending st).method
      = pending.findSome? (fun e =>
          if entry_matches type vendor role e then invoke e.constructor server peer
          else none) := by
  induction pending generalizing st with
  | nil => simpa [create_instance_loop] using h
  | cons entry pending ih =>
    by_cases hm : entry_matches type vendor role entry
    · cases hinv : invoke entry.constructor server peer with
      | none =>
        rw [create_instance_loop_decline invoke type vendor role server peer entry pending st
          hm hinv, ih _ rfl]
        simp [List.findSome?_cons, hm, hinv]
      | some m =>
        rw [create_instance_loop_break invoke type vendor role server peer entry pending st
          hm m hinv]
        simp [List.findSome?_cons, hm, hinv]
    · rw [create_instance_loop_skip invoke type vendor role server peer entry pending st hm,
        ih st h]
      simp [List.findSome?_cons, hm]

/-- Every call the loop adds to the record is a call of a pending item that
matches the request, with the identities of the request. -/
theorem create_instance_loop_calls {I M : Type}
    (invoke : xauth_constructor_t → I → I → Option M)
    (type : xauth_type_t) (vendor : Nat) (role : xauth_role_t) (server peer : I)
    (pending : List xauth_entry_t) (st : create_instance_state I M) :
    ∀ c ∈ (create_instance_loop invoke type vendor role server peer pending st).calls,
      c ∈ st.calls ∨
        (c.entry ∈ pending ∧ entry_matches type vendor role c.entry ∧
          c.server = server ∧ c.peer = peer) := by
  induction pending generalizing st with
  | nil => intro c hc; exact Or.inl hc
  | cons entry pending ih =>
    intro c hc
    by_cases hm : entry_matches type vendor role entry
    · cases hinv : invoke entry.constructor server peer with
      | none =>
        rw [create_instance_loop_decline invoke type vendor role server peer entry pending st
          hm hinv] at hc
        rcases ih _ c hc with h1 | ⟨h1, h2⟩
        · rcases List.mem_append.mp h1 with h3 | h3
          · exact Or.inl h3
          · rw [List.mem_singleton] at h3
            subst h3
            exact Or.inr ⟨List.mem_cons_self _ _, hm, rfl, rfl⟩
        · exact Or.inr ⟨List.mem_cons_of_mem _ h1, h2⟩
      | some m =>
        rw [create_instance_loop_break invoke type vendor role server peer entry pending st
          hm m hinv] at hc
        rcases List.mem_append.mp hc with h3 | h3
        · exact Or.inl h3
        · rw [List.mem_singleton] at h3
          subst h3
          exact Or.inr ⟨List.mem_cons_self _ _, hm, rfl, rfl⟩
    · rw [create_instance_loop_skip invoke type vendor role server peer entry pending st hm] at hc
      rcases ih st c hc with h1 | ⟨h1, h2⟩
      · exact Or.inl h1
      · exact Or.inr ⟨List.mem_cons_of_mem _ h1, h2⟩

/-- Deleting pending items that do not match the request does not change what
the loop does. -/
theorem create_instance_loop_filter {I M : Type}
    (invoke : xauth_constructor_t → I → I → Option M)
    (type : xauth_type_t) (vendor : Nat) (role : xauth_role_t) (server peer : I)
    (keep : xauth_entry_t → Bool)
    (hkeep : ∀ e, entry_matches type vendor role e → keep e = true)
    (pending : List xauth_entry_t) (st : create_instance_state I M) :
    create_instance_loop invoke type vendor role server peer (pending.filter keep) st
      = create_instance_loop invoke type vendor role server peer pending st := by
  induction pending generalizing st with
  | nil => rfl
  | cons entry pending ih =>
    by_cases hk : keep entry = true
    · rw [List.filter_cons_of_pos hk]
      by_cases hm : entry_matches type vendor role entry
      · cases hinv : invoke entry.constructor server peer with
        | none =>
          rw [create_instance_loop_decline invoke type vendor role server peer entry _ st hm hinv,
            create_instance_loop_decline invoke type vendor role server peer entry _ st hm hinv,
            ih]
        | some m =>
          rw [create_instance_loop_break invoke type vendor role server peer entry _ st hm m hinv,
            create_instance_loop_break invoke type vendor role server peer entry _ st hm m hinv]
      · rw [create_instance_loop_skip invoke type vendor role server peer entry _ st hm,
          create_instance_loop_skip invoke type vendor role server peer entry _ st hm, ih]
    · have hm : ¬ entry_matches type vendor role entry := fun h => hk (hkeep entry h)
      rw [List.filter_cons_of_neg hk,
        create_instance_loop_skip invoke type vendor role server peer entry _ st hm, ih]

/-- In a list, the first item on which `f` does not return `none` decides
`findSome?`. -/
theorem findSome?_first {α β : Type} (f : α → Option β) (l : List α) (i : Nat) (a : α) (b : β)
    (hi : l[i]? = some a) (hb : f a = some b)
    (hearlier : ∀ j a', j < i → l[j]? = some a' → f a' = none) :
    l.findSome? f = some b := by
  induction l generalizing i with
  | nil => simp at hi
  | cons x xs ih =>
    cases i with
    | zero =>
      simp at hi
      subst hi
      simp [List.findSome?_cons, hb]
    | succ i =>
      have hx : f x = none := hearlier 0 x (Nat.succ_pos i) (by simp)
      have hi2 : xs[i]? = some a := by simpa using hi
      simp only [List.findSome?_cons, hx]
      exact ih i hi2 (fun j a' hj ha' => hearlier (j + 1) a' (Nat.succ_lt_succ hj) (by simpa using ha'))

/-- Registering the constructors `cs` one after the other for one `(type, vendor,
role)` appends one entry for each, in the order of `cs`. -/
theorem add_method_foldl_methods (type : xauth_type_t) (vendor : Nat) (role : xauth_role_t)
    (cs : List xauth_constructor_t) (mgr : private_xauth_manager_t) :
    (cs.foldl (fun m c => add_method m type vendor role c) mgr).methods
      = mgr.methods ++ cs.map (fun c =>
          ({ type := type, vendor := vendor, role := role, constructor := c } : xauth_entry_t)) := by
  induction cs generalizing mgr with
  | nil => simp
  | cons c cs ih =>
    rw [List.foldl_cons, ih]
    simp [add_method, insert_last]

/-! ## Properties of `create_instance`, `remove_method` and `add_method` -/

/-- C1 (P1, order priority): after registrations of the constructors `cs`, one
after the other on a fresh manager and all for one `(type, vendor, role)`,
`create_instance` for that tuple returns the method of the earliest constructor of
`cs` that does not return `NULL` for the identities: when the constructor `c` at
position `i` returns `m` and every constructor at a position before `i` returns
`NULL`, the result is `m`. -/
theorem create_instance_order_priority {I M : Type}
    (invoke : xauth_constructor_t → I → I → Option M)
    (type : xauth_type_t) (vendor : Nat) (role : xauth_role_t)
    (cs : List xauth_constructor_t) (server peer : I)
    (i : Nat) (c : xauth_constructor_t) (m : M)
    (hi : cs[i]? = some c) (hm : invoke c server peer = some m)
    (hearlier : ∀ j c', j < i → cs[j]? = some c' → invoke c' server peer = none) :
    (create_instance invoke
        (cs.foldl (fun mgr c => add_method mgr type vendor role c) xauth_manager_create)
        type vendor role server peer).method = some m := by
  unfold create_instance
  simp only
  rw [create_instance_loop_method invoke type vendor role server peer _ _ rfl,
    add_method_foldl_methods]
  simp only [xauth_manager_create, linked_list_create, List.nil_append]
  apply findSome?_first _ _ i
    ({ type := type, vendor := vendor, role := role, constructor := c } : xauth_entry_t) m
  · simp [List.getElem?_map, hi]
  · simp [entry_matches, hm]
  · intro j e hj he
    rw [List.getElem?_map] at he
    cases hc : cs[j]? with
    | none => simp [hc] at he
    | some c' =>
      simp [hc] at he
      subst he
      simp [entry_matches, hearlier j c' hj hc]

/-- C1 at a sample: of the constructors 7, 8, 9 registered for `(1, 0, server)`,
the one at position 1 is the first that does not return `NULL`. -/
theorem create_instance_order_priority_witness :
    ([7, 8, 9] : List xauth_constructor_t)[1]? = some 8 ∧
    sample_invoke 8 3 4 = some 34 ∧
    (∀ j c', j < 1 → ([7, 8, 9] : List xauth_constructor_t)[j]? = some c' →
      sample_invoke c' 3 4 = none) ∧
    (create_instance sample_invoke
        (([7, 8, 9] : List xauth_constructor_t).foldl
          (fun mgr c => add_method mgr 1 0 xauth_role_t.XAUTH_SERVER c) xauth_manager_create)
        1 0 xauth_role_t.XAUTH_SERVER 3 4).method = some 34 :=
  have h : ∀ j c', j < 1 → ([7, 8, 9] : List xauth_constructor_t)[j]? = some c' →
      sample_invoke c' 3 4 = none := by
    intro j c' hj hc
    have hj0 : j = 0 := by omega
    subst hj0
    simp at hc
    subst hc
    rfl
  ⟨rfl, rfl, h,
    create_instance_order_priority sample_invoke 1 0 xauth_role_t.XAUTH_SERVER [7, 8, 9] 3 4
      1 8 34 rfl rfl h⟩

/-- C2 (P2, fallthrough on decline): in a catalog where `r1` stands before `r2`,
both match the requested `(type, vendor, role)` and no other entry before `r2`
matches it, if the constructor of `r1` returns `NULL` and the constructor of `r2`
returns the method `m`, then `create_instance` returns `m`, not `NULL`. -/
theorem create_instance_fallthrough {I M : Type}
    (invoke : xauth_constructor_t → I → I → Option M)
    (type : xauth_type_t) (vendor : Nat) (role : xauth_role_t) (server peer : I)
    (before between after : List xauth_entry_t) (r1 r2 : xauth_entry_t) (m : M)
    (h1 : entry_matches type vendor role r1) (h2 : entry_matches type vendor role r2)
    (hbefore : ∀ e ∈ before, ¬ entry_matches type vendor role e)
    (hbetween : ∀ e ∈ between, ¬ entry_matches type vendor role e)
    (hr1 : invoke r1.constructor server peer = none)
    (hr2 : invoke r2.constructor server peer = some m) :
    (create_instance invoke { methods := before ++ r1 :: (between ++ r2 :: after) }
        type vendor role server peer).method = some m ∧
    (create_instance invoke { methods := before ++ r1 :: (between ++ r2 :: after) }
        type vendor role server peer).method ≠ none := by
  have key : (create_instance invoke { methods := before ++ r1 :: (between ++ r2 :: after) }
      type vendor role server peer).method = some m := by
    unfold create_instance
    simp only
    rw [create_instance_loop_method invoke type vendor role server peer _ _ rfl,
      List.findSome?_append]
    have hb : before.findSome? (fun e =>
        if entry_matches type vendor role e then invoke e.constructor server peer else none)
        = none := by
      rw [List.findSome?_eq_none_iff]
      intro e he
      simp [hbefore e he]
    have hbt : between.findSome? (fun e =>
        if entry_matches type vendor role e then invoke e.constructor server peer else none)
        = none := by
      rw [List.findSome?_eq_none_iff]
      intro e he
      simp [hbetween e he]
    rw [hb]
    simp only [Option.none_or, List.findSome?_cons, if_pos h1, hr1]
    rw [List.findSome?_append, hbt]
    simp only [Option.none_or, List.findSome?_cons, if_pos h2, hr2]
  exact ⟨key, by rw [key]; exact Option.some_ne_none m⟩

/-- C2 at a sample: the entry of constructor 7 declines, the later entry of
constructor 8 for the same tuple supplies the method; entries for other tuples
stand before and between them. -/
theorem create_instance_fallthrough_witness :
    (create_instance sample_invoke
        { methods := [⟨2, 0, xauth_role_t.XAUTH_SERVER, 9⟩] ++
            ⟨1, 0, xauth_role_t.XAUTH_SERVER, 7⟩ ::
              ([⟨1, 5, xauth_role_t.XAUTH_SERVER, 9⟩] ++
                ⟨1, 0, xauth_role_t.XAUTH_SERVER, 8⟩ :: [⟨1, 0, xauth_role_t.XAUTH_SERVER, 9⟩]) }
        1 0 xauth_role_t.XAUTH_SERVER 3 4).method = some 34 ∧
    (create_instance sample_invoke
        { methods := [⟨2, 0, xauth_role_t.XAUTH_SERVER, 9⟩] ++
            ⟨1, 0, xauth_role_t.XAUTH_SERVER, 7⟩ ::
              ([⟨1, 5, xauth_role_t.XAUTH_SERVER, 9⟩] ++
                ⟨1, 0, xauth_role_t.XAUTH_SERVER, 8⟩ :: [⟨1, 0, xauth_role_t.XAUTH_SERVER, 9⟩]) }
        1 0 xauth_role_t.XAUTH_SERVER 3 4).method ≠ none :=
  create_instance_fallthrough sample_invoke 1 0 xauth_role_t.XAUTH_SERVER 3 4
    [⟨2, 0, xauth_role_t.XAUTH_SERVER, 9⟩] [⟨1, 5, xauth_role_t.XAUTH_SERVER, 9⟩]
    [⟨1, 0, xauth_role_t.XAUTH_SERVER, 9⟩]
    ⟨1, 0, xauth_role_t.XAUTH_SERVER, 7⟩ ⟨1, 0, xauth_role_t.XAUTH_SERVER, 8⟩ 34
    (by decide) (by decide) (by decide) (by decide) rfl rfl

/-- C3 (P3, no match): when no entry of the catalog has the requested `(type,
vendor, role)`, `create_instance` returns `NULL` and calls no constructor. -/
theorem create_instance_no_match {I M : Type}
    (invoke : xauth_constructor_t → I → I → Option M)
    (mgr : private_xauth_manager_t)
    (type : xauth_type_t) (vendor : Nat) (role : xauth_role_t) (server peer : I)
    (h : ∀ e ∈ mgr.methods, ¬ entry_matches type vendor role e) :
    (create_instance invoke mgr type vendor role server peer).method = none ∧
    (create_instance invoke mgr type vendor role server peer).calls = [] := by
  unfold create_instance
  simp only
  rw [create_instance_loop_no_match invoke type vendor role server peer _ _ h]
  exact ⟨rfl, rfl⟩

/-- C3 at a sample: a request for vendor 0 on a catalog whose entries are for
vendor 5, for another type or for the other role. -/
theorem create_instance_no_match_witness :
    (∀ e ∈ ({ methods := [⟨1, 5, xauth_role_t.XAUTH_SERVER, 8⟩,
        ⟨2, 0, xauth_role_t.XAUTH_SERVER, 8⟩, ⟨1, 0, xauth_role_t.XAUTH_PEER, 9⟩] } :
        private_xauth_manager_t).methods,
      ¬ entry_matches 1 0 xauth_role_t.XAUTH_SERVER e) ∧
    (create_instance sample_invoke
        { methods := [⟨1, 5, xauth_role_t.XAUTH_SERVER, 8⟩,
          ⟨2, 0, xauth_role_t.XAUTH_SERVER, 8⟩, ⟨1, 0, xauth_role_t.XAUTH_PEER, 9⟩] }
        1 0 xauth_role_t.XAUTH_SERVER 3 4).method = none ∧
    (create_instance sample_invoke
        { methods := [⟨1, 5, xauth_role_t.XAUTH_SERVER, 8⟩,
          ⟨2, 0, xauth_role_t.XAUTH_SERVER, 8⟩, ⟨1, 0, xauth_role_t.XAUTH_PEER, 9⟩] }
        1 0 xauth_role_t.XAUTH_SERVER 3 4).calls = [] :=
  ⟨by decide,
    create_instance_no_match sample_invoke
      { methods := [⟨1, 5, xauth_role_t.XAUTH_SERVER, 8⟩,
        ⟨2, 0, xauth_role_t.XAUTH_SERVER, 8⟩, ⟨1, 0, xauth_role_t.XAUTH_PEER, 9⟩] }
      1 0 xauth_role_t.XAUTH_SERVER 3 4 (by decide)⟩

/-- C4: `remove_method` is a filter: the catalog after `remove_method(c)` is the
catalog before it with every entry whose constructor is `c` deleted, whatever
its type, vendor and role and wherever it stands; the other entries are kept as
they are and in their order. -/
theorem remove_method_filter (mgr : private_xauth_manager_t) (c : xauth_constructor_t) :
    (remove_method mgr c).methods
      = mgr.methods.filter (fun e => decide (e.constructor ≠ c)) := by
  unfold remove_method
  simp only
  rw [remove_method_loop_eq]
  simp

/-- C5 (P4, unregister removes all duplicates): after two `add_method` calls
with one constructor `c` (for any two tuples) and one `remove_method(c)`, no entry
with constructor `c` is left, the catalog is the one before the two calls without
its entries of `c`, and `create_instance` returns `NULL` for every tuple that no
entry of the catalog before the two calls has. -/
theorem remove_method_removes_duplicates {I M : Type}
    (invoke : xauth_constructor_t → I → I → Option M)
    (mgr : private_xauth_manager_t) (c : xauth_constructor_t)
    (type1 : xauth_type_t) (vendor1 : Nat) (role1 : xauth_role_t)
    (type2 : xauth_type_t) (vendor2 : Nat) (role2 : xauth_role_t) :
    (∀ e ∈ (remove_method
        (add_method (add_method mgr type1 vendor1 role1 c) type2 vendor2 role2 c) c).methods,
      e.constructor ≠ c) ∧
    (remove_method
        (add_method (add_method mgr type1 vendor1 role1 c) type2 vendor2 role2 c) c).methods
      = mgr.methods.filter (fun e => decide (e.constructor ≠ c)) ∧
    (∀ (type : xauth_type_t) (vendor : Nat) (role : xauth_role_t) (server peer : I),
      (∀ e ∈ mgr.methods, ¬ entry_matches type vendor role e) →
      (create_instance invoke
        (remove_method
          (add_method (add_method mgr type1 vendor1 role1 c) type2 vendor2 role2 c) c)
        type vendor role server peer).method = none) := by
  have hm : (remove_method
      (add_method (add_method mgr type1 vendor1 role1 c) type2 vendor2 role2 c) c).methods
      = mgr.methods.filter (fun e => decide (e.constructor ≠ c)) := by
    unfold remove_method
    simp only
    rw [remove_method_loop_eq]
    simp [add_method, insert_last, List.filter_append]
  refine ⟨?_, hm, ?_⟩
  · intro e he
    rw [hm, List.mem_filter] at he
    simpa using he.2
  · intro type vendor role server peer h
    unfold create_instance
    simp only
    rw [create_instance_loop_no_match invoke type vendor role server peer _ _ ?_]
    intro e he
    rw [hm, List.mem_filter] at he
    exact h e he.1

/-- C5 at a sample: constructor 8 is registered twice on a catalog that holds an
entry of constructor 9 for another tuple; after `remove_method(8)` the request
`(1, 0, server)` finds nothing. -/
theorem remove_method_removes_duplicates_witness :
    (∀ e ∈ ({ methods := [⟨2, 0, xauth_role_t.XAUTH_PEER, 9⟩] } :
        private_xauth_manager_t).methods,
      ¬ entry_matches 1 0 xauth_role_t.XAUTH_SERVER e) ∧
    (create_instance sample_invoke
        (remove_method
          (add_method (add_method { methods := [⟨2, 0, xauth_role_t.XAUTH_PEER, 9⟩] }
            1 0 xauth_role_t.XAUTH_SERVER 8) 1 0 xauth_role_t.XAUTH_SERVER 8) 8)
        1 0 xauth_role_t.XAUTH_SERVER 3 4).method = none :=
  ⟨by decide,
    (remove_method_removes_duplicates sample_invoke
      { methods := [⟨2, 0, xauth_role_t.XAUTH_PEER, 9⟩] } 8
      1 0 xauth_role_t.XAUTH_SERVER 1 0 xauth_role_t.XAUTH_SERVER).2.2
      1 0 xauth_role_t.XAUTH_SERVER 3 4 (by decide)⟩

/-- C6: `add_method` appends: whatever the catalog holds (no uniqueness check is
made), the catalog after `add_method(type, vendor, role, constructor)` is the
catalog before it followed by one new entry with these four values; the entries
registered before are the first entries of the new catalog, unchanged and in
their order. -/
theorem add_method_appends (mgr : private_xauth_manager_t)
    (type : xauth_type_t) (vendor : Nat) (role : xauth_role_t) (c : xauth_constructor_t) :
    (add_method mgr type vendor role c).methods
      = mgr.methods ++ [{ type := type, vendor := vendor, role := role, constructor := c }] ∧
    (add_method mgr type vendor role c).methods.length = mgr.methods.length + 1 ∧
    (add_method mgr type vendor role c).methods.take mgr.methods.length = mgr.methods := by
  simp [add_method, insert_last]

/-- C7: `remove_method` with a constructor that no entry of the catalog holds
changes nothing: the manager after the call is the manager before it. The call
always returns and has no way to report an error. -/
theorem remove_method_absent (mgr : private_xauth_manager_t) (c : xauth_constructor_t)
    (h : ∀ e ∈ mgr.methods, e.constructor ≠ c) :
    remove_method mgr c = mgr := by
  unfold remove_method
  rw [remove_method_loop_eq, List.nil_append, List.filter_eq_self.mpr]
  intro e he
  simpa using h e he

/-- C7 at a sample: constructor 7 is not in a catalog of the constructors 8 and 9. -/
theorem remove_method_absent_witness :
    (∀ e ∈ ({ methods := [⟨1, 0, xauth_role_t.XAUTH_SERVER, 8⟩,
        ⟨1, 5, xauth_role_t.XAUTH_PEER, 9⟩] } : private_xauth_manager_t).methods,
      e.constructor ≠ 7) ∧
    remove_method { methods := [⟨1, 0, xauth_role_t.XAUTH_SERVER, 8⟩,
        ⟨1, 5, xauth_role_t.XAUTH_PEER, 9⟩] } 7
      = { methods := [⟨1, 0, xauth_role_t.XAUTH_SERVER, 8⟩,
        ⟨1, 5, xauth_role_t.XAUTH_PEER, 9⟩] } :=
  ⟨by decide,
    remove_method_absent { methods := [⟨1, 0, xauth_role_t.XAUTH_SERVER, 8⟩,
      ⟨1, 5, xauth_role_t.XAUTH_PEER, 9⟩] } 7 (by decide)⟩

/-- C8 (P6, vendor scoping): for every type and role, a `create_instance` call
with a vendor other than 5 (0 or any other value) never matches an entry
registered with vendor 5: no constructor call it makes is the call of an entry
with vendor 5, and its returned method and its calls are those it gives on the
catalog with every entry of vendor 5 deleted. -/
theorem create_instance_vendor_scoping {I M : Type}
    (invoke : xauth_constructor_t → I → I → Option M)
    (mgr : private_xauth_manager_t)
    (type : xauth_type_t) (vendor : Nat) (role : xauth_role_t) (server peer : I)
    (hv : vendor ≠ 5) :
    (∀ call ∈ (create_instance invoke mgr type vendor role server peer).calls,
      call.entry.vendor ≠ 5) ∧
    (create_instance invoke mgr type vendor role server peer).method
      = (create_instance invoke { methods := mgr.methods.filter (fun e => decide (e.vendor ≠ 5)) }
          type vendor role server peer).method ∧
    (create_instance invoke mgr type vendor role server peer).calls
      = (create_instance invoke { methods := mgr.methods.filter (fun e => decide (e.vendor ≠ 5)) }
          type vendor role server peer).calls := by
  have hkeep : ∀ e, entry_matches type vendor role e →
      (fun e : xauth_entry_t => decide (e.vendor ≠ 5)) e = true := by
    intro e he
    have : e.vendor ≠ 5 := fun h5 => hv (he.2.1.trans h5)
    simpa using this
  refine ⟨?_, ?_, ?_⟩
  · intro call hcall
    unfold create_instance at hcall
    simp only at hcall
    rcases create_instance_loop_calls invoke type vendor role server peer _ _ call hcall
      with h | ⟨_, hmatch, _⟩
    · simp at h
    · intro h5
      exact hv (hmatch.2.1.trans h5)
  · unfold create_instance
    simp only
    rw [create_instance_loop_filter invoke type vendor role server peer _ hkeep]
  · unfold create_instance
    simp only
    rw [create_instance_loop_filter invoke type vendor role server peer _ hkeep]

/-- C8 at a sample: a request with vendor 0 on a catalog whose first entry has
vendor 5 and the type and role of the request. -/
theorem create_instance_vendor_scoping_witness :
    (0 : Nat) ≠ 5 ∧
    (∀ call ∈ (create_instance sample_invoke
        { methods := [⟨1, 5, xauth_role_t.XAUTH_SERVER, 9⟩,
          ⟨1, 0, xauth_role_t.XAUTH_SERVER, 8⟩] }
        1 0 xauth_role_t.XAUTH_SERVER 3 4).calls, call.entry.vendor ≠ 5) ∧
    (create_instance sample_invoke
        { methods := [⟨1, 5, xauth_role_t.XAUTH_SERVER, 9⟩,
          ⟨1, 0, xauth_role_t.XAUTH_SERVER, 8⟩] }
        1 0 xauth_role_t.XAUTH_SERVER 3 4).method = some 34 :=
  ⟨by decide,
    (create_instance_vendor_scoping sample_invoke
      { methods := [⟨1, 5, xauth_role_t.XAUTH_SERVER, 9⟩,
        ⟨1, 0, xauth_role_t.XAUTH_SERVER, 8⟩] }
      1 0 xauth_role_t.XAUTH_SERVER 3 4 (by decide)).1,
    by decide⟩

/-- C9: `create_instance` returns `NULL` if and only if no entry matching the
requested `(type, vendor, role)` has a constructor that returns a method for the
identities; so it returns `NULL` both when no entry matches and when the
constructor of every matching entry returns `NULL`. -/
theorem create_instance_none_iff {I M : Type}
    (invoke : xauth_constructor_t → I → I → Option M)
    (mgr : private_xauth_manager_t)
    (type : xauth_type_t) (vendor : Nat) (role : xauth_role_t) (server peer : I) :
    (create_instance invoke mgr type vendor role server peer).method = none ↔
      ∀ e ∈ mgr.methods, entry_matches type vendor role e →
        invoke e.constructor server peer = none := by
  unfold create_instance
  simp only
  rw [create_instance_loop_method invoke type vendor role server peer _ _ rfl,
    List.findSome?_eq_none_iff]
  constructor
  · intro h e he hm
    have := h e he
    simpa [hm] using this
  · intro h e he
    by_cases hm : entry_matches type vendor role e
    · simpa [hm] using h e he hm
    · simp [hm]

/-- C10 (end-to-end scenario): on a fresh manager, after `add_method(1, 0,
XAUTH_SERVER, A)` and `add_method(1, 0, XAUTH_SERVER, B)`, with `A` always returning
`NULL` and `B` never returning `NULL`, `create_instance(1, 0, XAUTH_SERVER, s, p)`
returns the method of `B`; after `remove_method(A)` the catalog holds the one
entry of `B` and the same call still returns the method of `B`; after
`remove_method(B)` the same call returns `NULL`. -/
theorem scenario_end_to_end {I M : Type}
    (invoke : xauth_constructor_t → I → I → Option M)
    (A B : xauth_constructor_t) (s p : I)
    (hA : ∀ server peer, invoke A server peer = none)
    (hB : ∀ server peer, invoke B server peer ≠ none) :
    (scenario_first invoke A B s p).method = invoke B s p ∧
    (scenario_first invoke A B s p).method ≠ none ∧
    (scenario_removed_A invoke A B s p).methods
      = [{ type := 1, vendor := 0, role := xauth_role_t.XAUTH_SERVER, constructor := B }] ∧
    (scenario_second invoke A B s p).method = invoke B s p ∧
    (scenario_third invoke A B s p).method = none := by
  have hAB : A ≠ B := fun h => hB s p (h ▸ hA s p)
  have hBA : B ≠ A := fun h => hAB h.symm
  obtain ⟨m, hm⟩ := Option.ne_none_iff_exists'.mp (hB s p)
  have h1 : (scenario_first invoke A B s p).method = invoke B s p := by
    simp [scenario_first, scenario_registered, xauth_manager_create, linked_list_create,
      add_method, insert_last, create_instance, create_instance_loop, entry_matches, hA, hm]
  have h2 : (scenario_removed_A invoke A B s p).methods
      = [{ type := 1, vendor := 0, role := xauth_role_t.XAUTH_SERVER, constructor := B }] := by
    simp [scenario_removed_A, scenario_first, scenario_registered, xauth_manager_create,
      linked_list_create, add_method, insert_last, create_instance, remove_method,
      remove_method_loop, remove_at, enumerate_onto, hAB]
  have h3 : (scenario_second invoke A B s p).method = invoke B s p := by
    unfold scenario_second create_instance
    simp only
    rw [h2]
    simp [create_instance_loop, entry_matches, hm]
  have h4 : (scenario_third invoke A B s p).method = none := by
    unfold scenario_third scenario_removed_B scenario_second create_instance
    simp only
    unfold remove_method
    simp only
    rw [h2]
    simp [remove_method_loop, remove_at, enumerate_onto, create_instance_loop]
  exact ⟨h1, h1 ▸ hB s p, h2, h3, h4⟩

/-- C10 at a sample: `A` is the constructor 7, which always returns `NULL`, `B` the
constructor 9, which always returns the method 99. -/
theorem scenario_end_to_end_witness :
    (∀ server peer, sample_invoke 7 server peer = none) ∧
    (∀ server peer, sample_invoke 9 server peer ≠ none) ∧
    (scenario_first sample_invoke 7 9 3 4).method = some 99 ∧
    (scenario_removed_A sample_invoke 7 9 3 4).methods
      = [{ type := 1, vendor := 0, role := xauth_role_t.XAUTH_SERVER, constructor := 9 }] ∧
    (scenario_second sample_invoke 7 9 3 4).method = some 99 ∧
    (scenario_third sample_invoke 7 9 3 4).method = none :=
  have hA : ∀ server peer, sample_invoke 7 server peer = none := fun _ _ => rfl
  have hB : ∀ server peer, sample_invoke 9 server peer ≠ none := fun _ _ => by
    simp [sample_invoke]
  have h := scenario_end_to_end sample_invoke 7 9 3 4 hA hB
  ⟨hA, hB, h.1, h.2.2.1, h.2.2.2.1, h.2.2.2.2⟩

/-! ## Further lemmas on the loop of `create_instance` -/

/-- The calls the loop adds to the record are the calls of the pending items
that match the request, in their order, up to and including the first whose
constructor returns a method, each with the identities of the request. -/
theorem create_instance_loop_calls_eq {I M : Type}
    (invoke : xauth_constructor_t → I → I → Option M)
    (type : xauth_type_t) (vendor : Nat) (role : xauth_role_t) (server peer : I)
    (pending : List xauth_entry_t) (st : create_instance_state I M) :
    (create_instance_loop invoke type vendor role server peer pending st).calls
      = st.calls ++
        ((pending.filter (fun e => decide (entry_matches type vendor role e))).take
          ((pending.filter (fun e => decide (entry_matches type vendor role e))).findIdx
            (fun e => (invoke e.constructor server peer).isSome) + 1)).map
          (fun e => ({ entry := e, server := server, peer := peer } : constructor_call I)) := by
  induction pending generalizing st with
  | nil => simp [create_instance_loop]
  | cons entry pending ih =>
    by_cases hm : entry_matches type vendor role entry
    · cases hinv : invoke entry.constructor server peer with
      | none =>
        rw [create_instance_loop_decline invoke type vendor role server peer entry pending st
          hm hinv, ih]
        simp [List.filter_cons, hm, List.findIdx_cons, hinv, List.take_succ_cons]
      | some m =>
        rw [create_instance_loop_break invoke type vendor role server peer entry pending st
          hm m hinv]
        simp [List.filter_cons, hm, List.findIdx_cons, hinv]
    · rw [create_instance_loop_skip invoke type vendor role server peer entry pending st hm,
        ih]
      simp [List.filter_cons, hm]

/-- Started with `method = NULL`, a loop that returns a method has made its last
call on a pending item that matches the request, and the method is what that
item's constructor returns for the identities of the request, in their order. -/
theorem create_instance_loop_last_call {I M : Type}
    (invoke : xauth_constructor_t → I → I → Option M)
    (type : xauth_type_t) (vendor : Nat) (role : xauth_role_t) (server peer : I)
    (pending : List xauth_entry_t) (st : create_instance_state I M) (m : M)
    (hres : (create_instance_loop invoke type vendor role server peer pending st).method
      = some m)
    (hst : st.method = none) :
    ∃ e, e ∈ pending ∧ entry_matches type vendor role e ∧
      invoke e.constructor server peer = some m ∧
      (create_instance_loop invoke type vendor role server peer pending st).calls.getLast?
        = some { entry := e, server := server, peer := peer } := by
  induction pending generalizing st with
  | nil =>
    simp [create_instance_loop, hst] at hres
  | cons entry pending ih =>
    by_cases hm : entry_matches type vendor role entry
    · cases hinv : invoke entry.constructor server peer with
      | none =>
        rw [create_instance_loop_decline invoke type vendor role server peer entry pending st
          hm hinv] at hres ⊢
        obtain ⟨e, he, hme, hie, hlast⟩ := ih _ hres rfl
        exact ⟨e, List.mem_cons_of_mem _ he, hme, hie, hlast⟩
      | some m1 =>
        rw [create_instance_loop_break invoke type vendor role server peer entry pending st
          hm m1 hinv] at hres ⊢
        have hmm : m1 = m := by simpa using hres
        subst hmm
        exact ⟨entry, List.mem_cons_self _ _, hm, hinv, by simp⟩
    · rw [create_instance_loop_skip invoke type vendor role server peer entry pending st hm]
        at hres ⊢
      obtain ⟨e, he, hme, hie, hlast⟩ := ih st hres hst
      exact ⟨e, List.mem_cons_of_mem _ he, hme, hie, hlast⟩

/-- Every call of the record but the last one the loop adds was answered with
`NULL`: started on an empty record, the calls before the last are calls of
constructors that return `NULL` for the identities. -/
theorem create_instance_loop_earlier_calls {I M : Type}
    (invoke : xauth_constructor_t → I → I → Option M)
    (type : xauth_type_t) (vendor : Nat) (role : xauth_role_t) (server peer : I)
    (pending : List xauth_entry_t) (st : create_instance_state I M)
    (hst : ∀ c ∈ st.calls, invoke c.entry.constructor c.server c.peer = none) :
    ∀ c ∈ (create_instance_loop invoke type vendor role server peer pending st).calls.dropLast,
      invoke c.entry.constructor c.server c.peer = none := by
  induction pending generalizing st with
  | nil =>
    intro c hc
    exact hst c (List.mem_of_mem_dropLast hc)
  | cons entry pending ih =>
    by_cases hm : entry_matches type vendor role entry
    · cases hinv : invoke entry.constructor server peer with
      | none =>
        rw [create_instance_loop_decline invoke type vendor role server peer entry pending st
          hm hinv]
        apply ih
        intro c hc
        rcases List.mem_append.mp hc with h1 | h1
        · exact hst c h1
        · rw [List.mem_singleton] at h1
          subst h1
          exact hinv
      | some m1 =>
        rw [create_instance_loop_break invoke type vendor role server peer entry pending st
          hm m1 hinv]
        intro c hc
        rw [List.dropLast_concat] at hc
        exact hst c hc
    · rw [create_instance_loop_skip invoke type vendor role server peer entry pending st hm]
      exact ih st hst

/-- A loop that returns a method does the same on a list with further items
behind: it has left before it reaches them. -/
theorem create_instance_loop_append {I M : Type}
    (invoke : xauth_constructor_t → I → I → Option M)
    (type : xauth_type_t) (vendor : Nat) (role : xauth_role_t) (server peer : I)
    (pending further : List xauth_entry_t) (st : create_instance_state I M) (m : M)
    (hres : (create_instance_loop invoke type vendor role server peer pending st).method
      = some m)
    (hst : st.method = none) :
    create_instance_loop invoke type vendor role server peer (pending ++ further) st
      = create_instance_loop invoke type vendor role server peer pending st := by
  induction pending generalizing st with
  | nil =>
    simp [create_instance_loop, hst] at hres
  | cons entry pending ih =>
    rw [List.cons_append]
    by_cases hm : entry_matches type vendor role entry
    · cases hinv : invoke entry.constructor server peer with
      | none =>
        rw [create_instance_loop_decline invoke type vendor role server peer entry pending st
          hm hinv] at hres ⊢
        rw [create_instance_loop_decline invoke type vendor role server peer entry _ st
          hm hinv]
        exact ih _ hres rfl
      | some m1 =>
        rw [create_instance_loop_break invoke type vendor role server peer entry pending st
          hm m1 hinv,
          create_instance_loop_break invoke type vendor role server peer entry _ st
          hm m1 hinv]
    · rw [create_instance_loop_skip invoke type vendor role server peer entry pending st hm]
        at hres ⊢
      rw [create_instance_loop_skip invoke type vendor role server peer entry _ st hm]
      exact ih st hres hst

/-! ## Further properties of `create_instance`, `remove_method` and `add_method` -/

/-- C11: identities are forwarded verbatim: every constructor call that
`create_instance(type, vendor, role, server, peer)` makes has the caller's `server`
as its first and the caller's `peer` as its second argument, and a returned
method is what the constructor of the last call, the call of an entry of the
catalog, returns for `server` and `peer` in this order. -/
theorem create_instance_forwards_identities {I M : Type}
    (invoke : xauth_constructor_t → I → I → Option M)
    (mgr : private_xauth_manager_t)
    (type : xauth_type_t) (vendor : Nat) (role : xauth_role_t) (server peer : I) :
    (∀ call ∈ (create_instance invoke mgr type vendor role server peer).calls,
      call.server = server ∧ call.peer = peer) ∧
    (∀ m, (create_instance invoke mgr type vendor role server peer).method = some m →
      ∃ call, (create_instance invoke mgr type vendor role server peer).calls.getLast?
          = some call ∧
        call.entry ∈ mgr.methods ∧ call.server = server ∧ call.peer = peer ∧
        invoke call.entry.constructor server peer = some m) := by
  constructor
  · intro call hcall
    unfold create_instance at hcall
    simp only at hcall
    rcases create_instance_loop_calls invoke type vendor role server peer _ _ call hcall
      with h | ⟨_, _, hs, hp⟩
    · simp at h
    · exact ⟨hs, hp⟩
  · intro m hm
    unfold create_instance at hm ⊢
    simp only at hm ⊢
    obtain ⟨e, he, _, hie, hlast⟩ :=
      create_instance_loop_last_call invoke type vendor role server peer _ _ m hm rfl
    exact ⟨_, hlast, he, rfl, rfl, hie⟩

/-- C11 at a sample: the constructor 8 returns `10 * server + peer`; called with
`server = 3` and `peer = 4` through `create_instance` it yields 34, and the one
call on record has the arguments 3 and 4 in this order. -/
theorem create_instance_forwards_identities_witness :
    (create_instance sample_invoke { methods := [⟨1, 0, xauth_role_t.XAUTH_SERVER, 8⟩] }
        1 0 xauth_role_t.XAUTH_SERVER 3 4).method = some 34 ∧
    ∃ call, (create_instance sample_invoke
          { methods := [⟨1, 0, xauth_role_t.XAUTH_SERVER, 8⟩] }
          1 0 xauth_role_t.XAUTH_SERVER 3 4).calls.getLast? = some call ∧
        call.entry ∈ ({ methods := [⟨1, 0, xauth_role_t.XAUTH_SERVER, 8⟩] } :
          private_xauth_manager_t).methods ∧
        call.server = 3 ∧ call.peer = 4 ∧
        sample_invoke call.entry.constructor 3 4 = some 34 :=
  ⟨by decide,
    (create_instance_forwards_identities sample_invoke
      { methods := [⟨1, 0, xauth_role_t.XAUTH_SERVER, 8⟩] }
      1 0 xauth_role_t.XAUTH_SERVER 3 4).2 34 (by decide)⟩

/-- C12: lookups do not change the catalog: for every catalog and every
`create_instance` call, whatever it returns, the manager after the call is the
manager before it, with the same entries in the same order. -/
theorem create_instance_keeps_catalog {I M : Type}
    (invoke : xauth_constructor_t → I → I → Option M)
    (mgr : private_xauth_manager_t)
    (type : xauth_type_t) (vendor : Nat) (role : xauth_role_t) (server peer : I) :
    (create_instance invoke mgr type vendor role server peer).manager = mgr ∧
    (create_instance invoke mgr type vendor role server peer).manager.methods
      = mgr.methods := by
  unfold create_instance
  exact ⟨rfl, rfl⟩

/-- C14: stop at first success: the constructor calls of `create_instance` are
the calls of the entries that match the request, in insertion order, one call
for each, up to and including the first entry whose constructor returns a
method (all of them when none does); every call before the last one was
answered with `NULL`. -/
theorem create_instance_stops_at_first_success {I M : Type}
    (invoke : xauth_constructor_t → I → I → Option M)
    (mgr : private_xauth_manager_t)
    (type : xauth_type_t) (vendor : Nat) (role : xauth_role_t) (server peer : I) :
    (create_instance invoke mgr type vendor role server peer).calls
      = ((mgr.methods.filter (fun e => decide (entry_matches type vendor role e))).take
          ((mgr.methods.filter (fun e => decide (entry_matches type vendor role e))).findIdx
            (fun e => (invoke e.constructor server peer).isSome) + 1)).map
          (fun e => ({ entry := e, server := server, peer := peer } : constructor_call I)) ∧
    (∀ call ∈ (create_instance invoke mgr type vendor role server peer).calls.dropLast,
      invoke call.entry.constructor call.server call.peer = none) := by
  constructor
  · unfold create_instance
    simp only
    rw [create_instance_loop_calls_eq]
    simp
  · unfold create_instance
    simp only
    apply create_instance_loop_earlier_calls
    intro c hc
    simp at hc

/-- C15: entries that do not match are irrelevant to a lookup: `create_instance`
returns the same method and makes the same calls on the catalog as on its
sub-list of the entries whose type, vendor and role equal the requested ones;
every call it makes is the call of an entry with the requested type, vendor and
role, so that an entry for the other role or another type is never used. -/
theorem create_instance_only_matching {I M : Type}
    (invoke : xauth_constructor_t → I → I → Option M)
    (mgr : private_xauth_manager_t)
    (type : xauth_type_t) (vendor : Nat) (role : xauth_role_t) (server peer : I) :
    (create_instance invoke mgr type vendor role server peer).method
      = (create_instance invoke
          { methods := mgr.methods.filter (fun e =>
              decide (e.type = type ∧ e.vendor = vendor ∧ e.role = role)) }
          type vendor role server peer).method ∧
    (create_instance invoke mgr type vendor role server peer).calls
      = (create_instance invoke
          { methods := mgr.methods.filter (fun e =>
              decide (e.type = type ∧ e.vendor = vendor ∧ e.role = role)) }
          type vendor role server peer).calls ∧
    (∀ call ∈ (create_instance invoke mgr type vendor role server peer).calls,
      call.entry.type = type ∧ call.entry.vendor = vendor ∧ call.entry.role = role) := by
  have hkeep : ∀ e, entry_matches type vendor role e →
      (fun e : xauth_entry_t => decide (e.type = type ∧ e.vendor = vendor ∧ e.role = role)) e
        = true := by
    intro e he
    simp [he.1.symm, he.2.1.symm, he.2.2.symm]
  refine ⟨?_, ?_, ?_⟩
  · unfold create_instance
    simp only
    rw [create_instance_loop_filter invoke type vendor role server peer _ hkeep]
  · unfold create_instance
    simp only
    rw [create_instance_loop_filter invoke type vendor role server peer _ hkeep]
  · intro call hcall
    unfold create_instance at hcall
    simp only at hcall
    rcases create_instance_loop_calls invoke type vendor role server peer _ _ call hcall
      with h | ⟨_, hmatch, _⟩
    · simp at h
    · exact ⟨hmatch.1.symm, hmatch.2.1.symm, hmatch.2.2.symm⟩

/-- C16: a later registration never overrides an earlier successful one: when
`create_instance` returns the method `m` for a tuple and identities, then after
one more `add_method` with any type, vendor, role and constructor the same call
still returns `m`, and makes the same constructor calls. -/
theorem create_instance_after_add_method {I M : Type}
    (invoke : xauth_constructor_t → I → I → Option M)
    (mgr : private_xauth_manager_t)
    (type : xauth_type_t) (vendor : Nat) (role : xauth_role_t) (server peer : I) (m : M)
    (type1 : xauth_type_t) (vendor1 : Nat) (role1 : xauth_role_t) (c1 : xauth_constructor_t)
    (h : (create_instance invoke mgr type vendor role server peer).method = some m) :
    (create_instance invoke (add_method mgr type1 vendor1 role1 c1)
        type vendor role server peer).method = some m ∧
    (create_instance invoke (add_method mgr type1 vendor1 role1 c1)
        type vendor role server peer).calls
      = (create_instance invoke mgr type vendor role server peer).calls := by
  unfold create_instance at h ⊢
  simp only at h ⊢
  have happ : (add_method mgr type1 vendor1 role1 c1).methods
      = mgr.methods ++ [{ type := type1, vendor := vendor1, role := role1, constructor := c1 }] := by
    simp [add_method, insert_last]
  rw [happ, create_instance_loop_append invoke type vendor role server peer _ _ _ m h rfl]
  exact ⟨h, rfl⟩

/-- C16 at a sample: the entry of constructor 8 supplies the method 34; a later
registration of constructor 9 for the same tuple does not change that. -/
theorem create_instance_after_add_method_witness :
    (create_instance sample_invoke { methods := [⟨1, 0, xauth_role_t.XAUTH_SERVER, 8⟩] }
        1 0 xauth_role_t.XAUTH_SERVER 3 4).method = some 34 ∧
    (create_instance sample_invoke
        (add_method { methods := [⟨1, 0, xauth_role_t.XAUTH_SERVER, 8⟩] }
          1 0 xauth_role_t.XAUTH_SERVER 9)
        1 0 xauth_role_t.XAUTH_SERVER 3 4).method = some 34 :=
  ⟨by decide,
    (create_instance_after_add_method sample_invoke
      { methods := [⟨1, 0, xauth_role_t.XAUTH_SERVER, 8⟩] }
      1 0 xauth_role_t.XAUTH_SERVER 3 4 34 1 0 xauth_role_t.XAUTH_SERVER 9 (by decide)).1⟩

/-- C17: register/unregister round trip: when no entry of the catalog holds the
constructor `c`, `add_method(type, vendor, role, c)` followed by `remove_method(c)`
leaves the manager as it was, for any type, vendor and role. -/
theorem add_method_remove_method_round_trip (mgr : private_xauth_manager_t)
    (type : xauth_type_t) (vendor : Nat) (role : xauth_role_t) (c : xauth_constructor_t)
    (h : ∀ e ∈ mgr.methods, e.constructor ≠ c) :
    remove_method (add_method mgr type vendor role c) c = mgr := by
  unfold remove_method
  rw [remove_method_loop_eq]
  have hf : mgr.methods.filter (fun e => decide (e.constructor ≠ c)) = mgr.methods := by
    rw [List.filter_eq_self]
    intro e he
    simpa using h e he
  simp only [add_method, insert_last, List.nil_append, List.filter_append, hf]
  simp

/-- C17 at a sample: constructor 7 is added to and removed from a catalog of the
constructors 8 and 9. -/
theorem add_method_remove_method_round_trip_witness :
    (∀ e ∈ ({ methods := [⟨1, 0, xauth_role_t.XAUTH_SERVER, 8⟩,
        ⟨1, 5, xauth_role_t.XAUTH_PEER, 9⟩] } : private_xauth_manager_t).methods,
      e.constructor ≠ 7) ∧
    remove_method (add_method { methods := [⟨1, 0, xauth_role_t.XAUTH_SERVER, 8⟩,
        ⟨1, 5, xauth_role_t.XAUTH_PEER, 9⟩] } 2 5 xauth_role_t.XAUTH_PEER 7) 7
      = { methods := [⟨1, 0, xauth_role_t.XAUTH_SERVER, 8⟩,
        ⟨1, 5, xauth_role_t.XAUTH_PEER, 9⟩] } :=
  ⟨by decide,
    add_method_remove_method_round_trip { methods := [⟨1, 0, xauth_role_t.XAUTH_SERVER, 8⟩,
      ⟨1, 5, xauth_role_t.XAUTH_PEER, 9⟩] } 2 5 xauth_role_t.XAUTH_PEER 7 (by decide)⟩

/-- C18: `remove_method` is idempotent: calling `remove_method(c)` twice leaves the
manager that one call leaves, and after one call no entry of the catalog holds
the constructor `c`. -/
theorem remove_method_idempotent (mgr : private_xauth_manager_t) (c : xauth_constructor_t) :
    remove_method (remove_method mgr c) c = remove_method mgr c ∧
    (∀ e ∈ (remove_method mgr c).methods, e.constructor ≠ c) := by
  have hm : ∀ m : private_xauth_manager_t,
      remove_method m c = { methods := m.methods.filter (fun e => decide (e.constructor ≠ c)) } := by
    intro m
    unfold remove_method
    rw [remove_method_loop_eq, List.nil_append]
  constructor
  · rw [hm (remove_method mgr c), hm mgr]
    simp only [List.filter_filter, Bool.and_self]
  · intro e he
    rw [hm mgr] at he
    simp only [List.mem_filter] at he
    simpa using he.2

end XAuth
